import Mathlib

/-!
Shallow embedding of the rapidhash crate: the mixing primitives, bounds-checked
readers, length-banded compression core, seed evolution, one-shot and streaming
hashing APIs (`rapid_const.rs`, `rapid_hasher.rs`), the previous-generation
implementation (`rapid.rs`, `hasher.rs`), the hybrid fxhash/rapidhash hasher
(`rapid_hybrid.rs`) and the random number generators (`rng.rs`).

Machine `u64` values are embedded as `Nat` with explicit `% 2 ^ 64` wherever the
Rust code wraps (multiplication via `u128`, wrapping addition, casts); XOR, OR
and shifts of in-range values cannot overflow 64 bits and carry no reduction,
exactly as in the source. Byte slices are `List Nat` (little-endian order).
Fallible operations (the bounds-checked readers, whose failure is a Rust panic)
return `Option`.
-/

set_option autoImplicit false

namespace Rapidhash

/-- `2 ^ 64`, the modulus of `u64` arithmetic. -/
def U64 : Nat := 2 ^ 64

/-- The rapidhash default seed (`rapid_const.rs` line 2). -/
def RAPID_SEED : Nat := 0xbdd89aa982704029

/-- The three secret constants (`rapid_const.rs` line 3). -/
def RAPID_SECRET : Nat → Nat
  | 0 => 0x2d358dccaa6c78a5
  | 1 => 0x8bb84b93962eacc9
  | _ => 0x4b33a62ed433d4a3

/-- `u64::from_le_bytes` / `u32::from_le_bytes`: little-endian byte list to value. -/
def fromLeBytes (l : List Nat) : Nat :=
  l.foldr (fun byte acc => byte + 256 * acc) 0

/-- `to_le_bytes` for a `width`-byte integer: little-endian digits base 256. -/
def toLeBytes : Nat → Nat → List Nat
  | 0, _ => []
  | width + 1, i => (i % 256) :: toLeBytes width (i / 256)

/-- `read_u64(slice, offset)` (`rapid_const.rs` lines 124-132): reads 8 bytes at
`offset` little-endian; the `panic!("read_u64: slice too short")` branch (taken
when fewer than 8 bytes remain past `offset`) is `none`. -/
def read_u64 (slice : List Nat) (offset : Nat) : Option Nat :=
  if offset + 8 ≤ slice.length then some (fromLeBytes ((slice.drop offset).take 8)) else none

/-- `read_u32(slice, offset)` (`rapid_const.rs` lines 138-146): reads 4 bytes at
`offset` little-endian; the panic branch is `none`. -/
def read_u32 (slice : List Nat) (offset : Nat) : Option Nat :=
  if offset + 4 ≤ slice.length then some (fromLeBytes ((slice.drop offset).take 4)) else none

/-- `read_u32_combined(slice, offset_top, offset_bot)` (`rapid_const.rs` lines 176-182). -/
def read_u32_combined (slice : List Nat) (offset_top offset_bot : Nat) : Option Nat := do
  let top ← read_u32 slice offset_top
  let bot ← read_u32 slice offset_bot
  pure ((top <<< 32) ||| bot)

/-- `rapid_mum(a, b)` (`rapid_const.rs` lines 29-32): full 128-bit product of two
`u64` values, returned as `(low64, high64)`. -/
def rapid_mum (a b : Nat) : Nat × Nat :=
  (a * b % U64, a * b / U64 % U64)

/-- `rapid_mix(a, b)` (`rapid_const.rs` lines 35-38). -/
def rapid_mix (a b : Nat) : Nat :=
  (rapid_mum a b).1 ^^^ (rapid_mum a b).2

/-- `rapidhash_seed(seed, len)` (`rapid_const.rs` lines 41-43). -/
def rapidhash_seed (seed len : Nat) : Nat :=
  seed ^^^ rapid_mix (seed ^^^ RAPID_SECRET 0) (RAPID_SECRET 1) ^^^ len

/-- The unrolled `while slice.len() >= 96` loop of `rapidhash_core`
(`rapid_const.rs` lines 76-85), returning the three lanes and the remaining slice. -/
def rapid_loop96 (seed see1 see2 : Nat) (slice : List Nat) : Option (Nat × Nat × Nat × List Nat) :=
  if h : 96 ≤ slice.length then do
    let x0 ← read_u64 slice 0
    let x1 ← read_u64 slice 8
    let seed := rapid_mix (x0 ^^^ RAPID_SECRET 0) (x1 ^^^ seed)
    let x2 ← read_u64 slice 16
    let x3 ← read_u64 slice 24
    let see1 := rapid_mix (x2 ^^^ RAPID_SECRET 1) (x3 ^^^ see1)
    let x4 ← read_u64 slice 32
    let x5 ← read_u64 slice 40
    let see2 := rapid_mix (x4 ^^^ RAPID_SECRET 2) (x5 ^^^ see2)
    let x6 ← read_u64 slice 48
    let x7 ← read_u64 slice 56
    let seed := rapid_mix (x6 ^^^ RAPID_SECRET 0) (x7 ^^^ seed)
    let x8 ← read_u64 slice 64
    let x9 ← read_u64 slice 72
    let see1 := rapid_mix (x8 ^^^ RAPID_SECRET 1) (x9 ^^^ see1)
    let x10 ← read_u64 slice 80
    let x11 ← read_u64 slice 88
    let see2 := rapid_mix (x10 ^^^ RAPID_SECRET 2) (x11 ^^^ see2)
    rapid_loop96 seed see1 see2 (slice.drop 96)
  else
    some (seed, see1, see2, slice)
termination_by slice.length
decreasing_by simp [List.length_drop]; omega

/-- The `if slice.len() >= 48` round of `rapidhash_core` (`rapid_const.rs`
lines 86-92). -/
def rapid_round48 (seed see1 see2 : Nat) (slice : List Nat) :
    Option (Nat × Nat × Nat × List Nat) :=
  if 48 ≤ slice.length then do
    let x0 ← read_u64 slice 0
    let x1 ← read_u64 slice 8
    let seed := rapid_mix (x0 ^^^ RAPID_SECRET 0) (x1 ^^^ seed)
    let x2 ← read_u64 slice 16
    let x3 ← read_u64 slice 24
    let see1 := rapid_mix (x2 ^^^ RAPID_SECRET 1) (x3 ^^^ see1)
    let x4 ← read_u64 slice 32
    let x5 ← read_u64 slice 40
    let see2 := rapid_mix (x4 ^^^ RAPID_SECRET 2) (x5 ^^^ see2)
    pure (seed, see1, see2, slice.drop 48)
  else
    pure (seed, see1, see2, slice)

/-- The final `if slice.len() > 16` seed rounds of `rapidhash_core`
(`rapid_const.rs` lines 95-100). -/
def rapid_tail16 (seed : Nat) (slice : List Nat) : Option Nat :=
  if 16 < slice.length then do
    let x0 ← read_u64 slice 0
    let x1 ← read_u64 slice 8
    let seed := rapid_mix (x0 ^^^ RAPID_SECRET 2) (x1 ^^^ seed ^^^ RAPID_SECRET 1)
    if 32 < slice.length then do
      let x2 ← read_u64 slice 16
      let x3 ← read_u64 slice 24
      pure (rapid_mix (x2 ^^^ RAPID_SECRET 2) (x3 ^^^ seed))
    else
      pure seed
  else
    pure seed

/-- The `len > 16` seed-mixing of `rapidhash_core` (`rapid_const.rs` lines
71-100): the 96-byte loop, the 48-byte round, the `seed ^= see1 ^ see2` fold and
the final one or two 16-byte rounds, returning the final seed. Shared verbatim
with `rapidhash_cold` in `rapid_hybrid.rs` (lines 113-142). -/
def rapid_large_seed (seed : Nat) (data : List Nat) : Option Nat := do
  let (seed, see1, see2, slice) ← rapid_loop96 seed seed seed data
  let (seed, see1, see2, slice) ← rapid_round48 seed see1 see2 slice
  rapid_tail16 (seed ^^^ see1 ^^^ see2) slice

/-- The common tail of `rapidhash_core` (`rapid_const.rs` lines 106-112):
`a ^= RAPID_SECRET[1]; b ^= seed; (a, b) = rapid_mum(a, b)`. -/
def rapid_tail (a b seed : Nat) : Nat × Nat × Nat :=
  let a := a ^^^ RAPID_SECRET 1
  let b := b ^^^ seed
  let p := rapid_mum a b
  (p.1, p.2, seed)

/-- `rapidhash_core(a, b, seed, data)` (`rapid_const.rs` lines 46-113). -/
def rapidhash_core (a b seed : Nat) (data : List Nat) : Option (Nat × Nat × Nat) :=
  if data.length ≤ 16 then
    if 8 ≤ data.length then do
      let plast := data.length - 4
      let delta := 4
      let xa ← read_u32_combined data 0 plast
      let xb ← read_u32_combined data delta (plast - delta)
      pure (rapid_tail (a ^^^ xa) (b ^^^ xb) seed)
    else if 4 ≤ data.length then do
      let plast := data.length - 4
      let delta := 0
      let xa ← read_u32_combined data 0 plast
      let xb ← read_u32_combined data delta (plast - delta)
      pure (rapid_tail (a ^^^ xa) (b ^^^ xb) seed)
    else if 0 < data.length then do
      let len := data.length
      let d0 ← data[0]?
      let dmid ← data[len >>> 1]?
      let dlast ← data[len - 1]?
      pure (rapid_tail (a ^^^ ((d0 <<< 56) ||| (dmid <<< 32) ||| dlast)) b seed)
    else
      pure (rapid_tail a b seed)
  else do
    let seed ← rapid_large_seed seed data
    let xa ← read_u64 data (data.length - 16)
    let xb ← read_u64 data (data.length - 8)
    pure (rapid_tail (a ^^^ xa) (b ^^^ xb) seed)

/-- `rapidhash_finish(a, b, len)` (`rapid_const.rs` lines 116-118). -/
def rapidhash_finish (a b len : Nat) : Nat :=
  rapid_mix (a ^^^ RAPID_SECRET 0 ^^^ len) (b ^^^ RAPID_SECRET 1)

/-- `rapidhash_inline(data, seed)` (`rapid_const.rs` lines 22-26). -/
def rapidhash_inline (data : List Nat) (seed : Nat) : Option Nat := do
  let seed := rapidhash_seed seed (data.length % U64)
  let (a, b, _) ← rapidhash_core 0 0 seed data
  pure (rapidhash_finish a b (data.length % U64))

/-- `rapidhash_seeded(data, seed)` (`rapid_const.rs` lines 13-15). -/
def rapidhash_seeded (data : List Nat) (seed : Nat) : Option Nat :=
  rapidhash_inline data seed

/-- `rapidhash(data)` (`rapid_const.rs` lines 7-9). -/
def rapidhash (data : List Nat) : Option Nat :=
  rapidhash_inline data RAPID_SEED

/-- The streaming hasher state (`rapid_hasher.rs` lines 18-23). -/
structure RapidHasher where
  seed : Nat
  a : Nat
  b : Nat
  size : Nat
deriving DecidableEq

/-- `RapidHasher::new(seed)` (`rapid_hasher.rs` lines 74-81). -/
def RapidHasher.new (seed : Nat) : RapidHasher :=
  ⟨seed, 0, 0, 0⟩

/-- `RapidHasher::default_const()` (`rapid_hasher.rs` lines 86-88). -/
def RapidHasher.default_const : RapidHasher :=
  RapidHasher.new RAPID_SEED

/-- `RapidHasher::write_const_inline_always(bytes)` (`rapid_hasher.rs` lines
96-112), which `Hasher::write` delegates to: wrapping-add the chunk length to
`size`, evolve the seed with the new cumulative size, fold through the core. -/
def RapidHasher.write_const (self : RapidHasher) (bytes : List Nat) : Option RapidHasher := do
  let size := (self.size + bytes.length) % U64
  let seed := rapidhash_seed self.seed size
  let (a, b, seed) ← rapidhash_core self.a self.b seed bytes
  pure ⟨seed, a, b, size⟩

/-- `RapidHasher::finish_const_inline_always()` (`rapid_hasher.rs` lines 117-119). -/
def RapidHasher.finish_const (self : RapidHasher) : Nat :=
  rapidhash_finish self.a self.b self.size

/-- `Hasher::write_u8` for `RapidHasher` (`rapid_hasher.rs` lines 171-173). -/
def RapidHasher.write_u8 (self : RapidHasher) (i : Nat) : Option RapidHasher :=
  self.write_const (toLeBytes 1 i)

/-- `Hasher::write_u16` for `RapidHasher` (`rapid_hasher.rs` lines 176-178). -/
def RapidHasher.write_u16 (self : RapidHasher) (i : Nat) : Option RapidHasher :=
  self.write_const (toLeBytes 2 i)

/-- `Hasher::write_u32` for `RapidHasher` (`rapid_hasher.rs` lines 181-183). -/
def RapidHasher.write_u32 (self : RapidHasher) (i : Nat) : Option RapidHasher :=
  self.write_const (toLeBytes 4 i)

/-- `Hasher::write_u64` for `RapidHasher` (`rapid_hasher.rs` lines 186-187). -/
def RapidHasher.write_u64 (self : RapidHasher) (i : Nat) : Option RapidHasher :=
  self.write_const (toLeBytes 8 i)

/-- `Hasher::write_u128` for `RapidHasher` (`rapid_hasher.rs` lines 198-200). -/
def RapidHasher.write_u128 (self : RapidHasher) (i : Nat) : Option RapidHasher :=
  self.write_const (toLeBytes 16 i)

/-- `Hasher::write_usize` for `RapidHasher` (`rapid_hasher.rs` lines 203-205);
`usize` is 8 bytes (the source statically asserts `usize::MAX <= u64::MAX`). -/
def RapidHasher.write_usize (self : RapidHasher) (i : Nat) : Option RapidHasher :=
  self.write_const (toLeBytes 8 i)

/-- Native-endian bytes of a signed `width*8`-bit integer: the little-endian
bytes of its two's complement residue. -/
def toLeBytesSigned (width : Nat) (i : Int) : List Nat :=
  toLeBytes width (i % ((2 : Int) ^ (8 * width))).toNat

/-- `Hasher::write_i8` for `RapidHasher` (`rapid_hasher.rs` lines 208-210). -/
def RapidHasher.write_i8 (self : RapidHasher) (i : Int) : Option RapidHasher :=
  self.write_const (toLeBytesSigned 1 i)

/-- `Hasher::write_i16` for `RapidHasher` (`rapid_hasher.rs` lines 213-215). -/
def RapidHasher.write_i16 (self : RapidHasher) (i : Int) : Option RapidHasher :=
  self.write_const (toLeBytesSigned 2 i)

/-- `Hasher::write_i32` for `RapidHasher` (`rapid_hasher.rs` lines 218-220). -/
def RapidHasher.write_i32 (self : RapidHasher) (i : Int) : Option RapidHasher :=
  self.write_const (toLeBytesSigned 4 i)

/-- `Hasher::write_i64` for `RapidHasher` (`rapid_hasher.rs` lines 223-225). -/
def RapidHasher.write_i64 (self : RapidHasher) (i : Int) : Option RapidHasher :=
  self.write_const (toLeBytesSigned 8 i)

/-- `Hasher::write_i128` for `RapidHasher` (`rapid_hasher.rs` lines 228-230). -/
def RapidHasher.write_i128 (self : RapidHasher) (i : Int) : Option RapidHasher :=
  self.write_const (toLeBytesSigned 16 i)

/-- `Hasher::write_isize` for `RapidHasher` (`rapid_hasher.rs` lines 233-235). -/
def RapidHasher.write_isize (self : RapidHasher) (i : Int) : Option RapidHasher :=
  self.write_const (toLeBytesSigned 8 i)

/-- `u64::rotate_left` on a 64-bit value. -/
def rotateLeft64 (x n : Nat) : Nat :=
  ((x <<< n) % U64) ||| (x >>> (64 - n))

/-- `hash_word(hash, word)` (`rapid_hybrid.rs` lines 60-62). -/
def hash_word (hash word : Nat) : Nat :=
  (rotateLeft64 hash 5 ^^^ word) * 0x517cc1b727220a95 % U64

/-- The `while bytes.len() >= 8` loop of `fxrapidhash` (`rapid_hybrid.rs` lines
79-83). -/
def fx_loop8 (hash : Nat) (bytes : List Nat) : Option (Nat × List Nat) :=
  if h : 8 ≤ bytes.length then do
    let n ← read_u64 bytes 0
    fx_loop8 (hash_word hash n) (bytes.drop 8)
  else
    some (hash, bytes)
termination_by bytes.length
decreasing_by simp [List.length_drop]; omega

/-- `rapidhash_cold(data, seed)` (`rapid_hybrid.rs` lines 110-149): rapidhash
for `data.len() > 16` with the seed evolution, final-16-bytes fold and finish
inlined. -/
def rapidhash_cold (data : List Nat) (seed : Nat) : Option Nat := do
  let seed := seed ^^^ rapid_mix (seed ^^^ RAPID_SECRET 0) (RAPID_SECRET 1) ^^^ (data.length % U64)
  let seed ← rapid_large_seed seed data
  let xa ← read_u64 data (data.length - 16)
  let xb ← read_u64 data (data.length - 8)
  let a := xa ^^^ RAPID_SECRET 1
  let b := xb ^^^ seed
  let p := rapid_mum a b
  pure (rapid_mix (p.1 ^^^ RAPID_SECRET 0 ^^^ (data.length % U64)) (p.2 ^^^ RAPID_SECRET 1))

/-- `fxrapidhash(bytes, hash)` (`rapid_hybrid.rs` lines 73-99). -/
def fxrapidhash (bytes : List Nat) (hash : Nat) : Option Nat :=
  if bytes.length ≤ 16 then do
    let (hash, bytes) ← fx_loop8 hash bytes
    let (hash, bytes) ←
      if 4 ≤ bytes.length then do
        let n ← read_u32 bytes 0
        pure (hash_word hash n, bytes.drop 4)
      else
        pure (hash, bytes)
    pure (bytes.foldl hash_word hash)
  else
    rapidhash_cold bytes hash

/-- The hybrid hasher state (`rapid_hybrid.rs` lines 10-12). -/
structure FxRapidHasher where
  hash : Nat
deriving DecidableEq

/-- `Hasher::write` for `FxRapidHasher` (`rapid_hybrid.rs` lines 173-175). -/
def FxRapidHasher.write (self : FxRapidHasher) (bytes : List Nat) : Option FxRapidHasher :=
  (fxrapidhash bytes self.hash).map FxRapidHasher.mk

/-- `Hasher::write_u64` for `FxRapidHasher` (`rapid_hybrid.rs` lines 193-196):
bypasses the byte-slice path and calls `hash_word` directly. -/
def FxRapidHasher.write_u64 (self : FxRapidHasher) (i : Nat) : FxRapidHasher :=
  ⟨hash_word self.hash i⟩

/-- `rapidrng_fast(&mut seed)` (`rng.rs` lines 17-20), as the pure state-passing
function returning `(updated seed, output)`. -/
def rapidrng_fast (seed : Nat) : Nat × Nat :=
  let seed := (seed + RAPID_SECRET 0) % U64
  (seed, rapid_mix seed (seed ^^^ RAPID_SECRET 1))

/-- The output half of `rapidrng_fast` as a function of the already-updated seed. -/
def rapidrng_fast_out (seed : Nat) : Nat :=
  rapid_mix seed (seed ^^^ RAPID_SECRET 1)

/-- `rapidrng_quality(&mut state)` (`rng.rs` lines 29-37), as the pure
state-passing function returning `(output, updated state)`. -/
def rapidrng_quality (state : Nat × Nat × Nat) : Nat × (Nat × Nat × Nat) :=
  let s0 := (state.1 + RAPID_SECRET 0) % U64
  let s1 := state.2.1 ^^^ RAPID_SECRET 1
  let s2 := state.2.2 ^^^ s0
  let p := rapid_mum s1 s2
  (p.1 ^^^ p.2, (s0, p.1, p.2))

/-- The RNG state (`rng.rs` lines 73-77). -/
structure RapidRng where
  seed : Nat
  a : Nat
  b : Nat
deriving DecidableEq

/-- `RapidRng::new(seed)` (`rng.rs` lines 82-88). -/
def RapidRng.new (seed : Nat) : RapidRng :=
  ⟨seed, 0, 0⟩

/-- `RapidRng::state()` (`rng.rs` lines 92-98): the three words serialized
little-endian into 24 bytes. -/
def RapidRng.state (self : RapidRng) : List Nat :=
  toLeBytes 8 self.seed ++ toLeBytes 8 self.a ++ toLeBytes 8 self.b

/-- `SeedableRng::from_seed` for `RapidRng` (`rng.rs` lines 145-151). -/
def RapidRng.from_seed (seed : List Nat) : RapidRng :=
  ⟨fromLeBytes (seed.take 8),
   fromLeBytes ((seed.drop 8).take 8),
   fromLeBytes ((seed.drop 16).take 8)⟩

namespace Rapid

/-- `read_u32(slice)` of the previous-generation implementation (`rapid.rs`
lines 93-97): reads `slice[..4]` little-endian; the slicing panic on a short
slice is `none`. -/
def read_u32 (slice : List Nat) : Option Nat :=
  if 4 ≤ slice.length then some (fromLeBytes (slice.take 4)) else none

/-- `read_u64(slice)` (`rapid.rs` lines 86-90). -/
def read_u64 (slice : List Nat) : Option Nat :=
  if 8 ≤ slice.length then some (fromLeBytes (slice.take 8)) else none

/-- Rust's `&slice[i..]`: panics (here `none`) when `i > slice.len()`. -/
def subslice (slice : List Nat) (i : Nat) : Option (List Nat) :=
  if i ≤ slice.length then some (slice.drop i) else none

/-- `read_u32(&slice[i..])`. -/
def read_u32_from (slice : List Nat) (i : Nat) : Option Nat :=
  (subslice slice i).bind read_u32

/-- `read_u64(&slice[i..])`. -/
def read_u64_from (slice : List Nat) (i : Nat) : Option Nat :=
  (subslice slice i).bind read_u64

/-- The bit-trick delta of the previous-generation core (`rapid.rs` line 30):
`(len & 24) >> (len >> 3)`. -/
def delta (len : Nat) : Nat :=
  (len &&& 24) >>> (len >>> 3)

/-- The `while slice.len() >= 96` loop of the previous-generation core
(`rapid.rs` lines 44-52). -/
def loop96 (seed see1 see2 : Nat) (slice : List Nat) : Option (Nat × Nat × Nat × List Nat) :=
  if h : 96 ≤ slice.length then do
    let x0 ← read_u64_from slice 0
    let x1 ← read_u64_from slice 8
    let seed := rapid_mix (x0 ^^^ RAPID_SECRET 0) (x1 ^^^ seed)
    let x2 ← read_u64_from slice 16
    let x3 ← read_u64_from slice 24
    let see1 := rapid_mix (x2 ^^^ RAPID_SECRET 1) (x3 ^^^ see1)
    let x4 ← read_u64_from slice 32
    let x5 ← read_u64_from slice 40
    let see2 := rapid_mix (x4 ^^^ RAPID_SECRET 2) (x5 ^^^ see2)
    let x6 ← read_u64_from slice 48
    let x7 ← read_u64_from slice 56
    let seed := rapid_mix (x6 ^^^ RAPID_SECRET 0) (x7 ^^^ seed)
    let x8 ← read_u64_from slice 64
    let x9 ← read_u64_from slice 72
    let see1 := rapid_mix (x8 ^^^ RAPID_SECRET 1) (x9 ^^^ see1)
    let x10 ← read_u64_from slice 80
    let x11 ← read_u64_from slice 88
    let see2 := rapid_mix (x10 ^^^ RAPID_SECRET 2) (x11 ^^^ see2)
    match hs : subslice slice 96 with
    | some rest => loop96 seed see1 see2 rest
    | none => none
  else
    some (seed, see1, see2, slice)
termination_by slice.length
decreasing_by
  simp only [subslice] at hs
  rw [if_pos h] at hs
  injection hs with hrest
  subst hrest
  simp [List.length_drop]; omega

/-- The `len > 16` seed-mixing of the previous-generation core (`rapid.rs`
lines 39-66). -/
def large_seed (seed : Nat) (data : List Nat) : Option Nat := do
  let (seed, see1, see2, slice) ← loop96 seed seed seed data
  let (seed, see1, see2, slice) ←
    if 48 ≤ slice.length then do
      let x0 ← read_u64_from slice 0
      let x1 ← read_u64_from slice 8
      let seed := rapid_mix (x0 ^^^ RAPID_SECRET 0) (x1 ^^^ seed)
      let x2 ← read_u64_from slice 16
      let x3 ← read_u64_from slice 24
      let see1 := rapid_mix (x2 ^^^ RAPID_SECRET 1) (x3 ^^^ see1)
      let x4 ← read_u64_from slice 32
      let x5 ← read_u64_from slice 40
      let see2 := rapid_mix (x4 ^^^ RAPID_SECRET 2) (x5 ^^^ see2)
      let slice ← subslice slice 48
      pure (seed, see1, see2, slice)
    else
      pure (seed, see1, see2, slice)
  let seed := seed ^^^ see1 ^^^ see2
  if 16 < slice.length then do
    let x0 ← read_u64_from slice 0
    let x1 ← read_u64_from slice 8
    let seed := rapid_mix (x0 ^^^ RAPID_SECRET 2) (x1 ^^^ seed ^^^ RAPID_SECRET 1)
    if 32 < slice.length then do
      let x2 ← read_u64_from slice 16
      let x3 ← read_u64_from slice 24
      pure (rapid_mix (x2 ^^^ RAPID_SECRET 2) (x3 ^^^ seed))
    else
      pure seed
  else
    pure seed

/-- `rapidhash_core(a, b, seed, data)` of the previous-generation implementation
(`rapid.rs` lines 25-77), with the `(len & 24) >> (len >> 3)` delta for the
4-to-16-byte band. -/
def rapidhash_core (a b seed : Nat) (data : List Nat) : Option (Nat × Nat × Nat) :=
  if data.length ≤ 16 then
    if 4 ≤ data.length then do
      let plast := data.length - 4
      let t0 ← read_u32_from data 0
      let t1 ← read_u32_from data plast
      let a := a ^^^ ((t0 <<< 32) ||| t1)
      let d := delta data.length
      let t2 ← read_u32_from data d
      let t3 ← read_u32_from data (plast - d)
      let b := b ^^^ ((t2 <<< 32) ||| t3)
      pure (rapid_tail a b seed)
    else if 0 < data.length then do
      let len := data.length
      let d0 ← data[0]?
      let dmid ← data[len >>> 1]?
      let dlast ← data[len - 1]?
      pure (rapid_tail (a ^^^ ((d0 <<< 56) ||| (dmid <<< 32) ||| dlast)) b seed)
    else
      pure (rapid_tail a b seed)
  else do
    let seed ← large_seed seed data
    let xa ← read_u64_from data (data.length - 16)
    let xb ← read_u64_from data (data.length - 8)
    pure (rapid_tail (a ^^^ xa) (b ^^^ xb) seed)

/-- The previous-generation streaming hasher state (`hasher.rs` lines 18-23). -/
structure RapidHasher where
  seed : Nat
  a : Nat
  b : Nat
  size : Nat
deriving DecidableEq

/-- `RapidHasher::new(seed)` (`hasher.rs` lines 88-95). -/
def RapidHasher.new (seed : Nat) : RapidHasher :=
  ⟨seed, 0, 0, 0⟩

/-- `Hasher::write` for the previous-generation `RapidHasher` (`hasher.rs`
lines 115-126): wrapping-add the chunk length to `size`, XOR the seed with the
mix of itself and the secrets and with the new cumulative size, fold through
the core. -/
def RapidHasher.write (self : RapidHasher) (bytes : List Nat) : Option RapidHasher := do
  let size := (self.size + bytes.length) % U64
  let seed := self.seed ^^^ rapid_mix (self.seed ^^^ RAPID_SECRET 0) (RAPID_SECRET 1) ^^^ size
  let (a, b, seed) ← rapidhash_core self.a self.b seed bytes
  pure ⟨seed, a, b, size⟩

/-- `Hasher::finish` for the previous-generation `RapidHasher` (`hasher.rs`
lines 110-112). -/
def RapidHasher.finish (self : RapidHasher) : Nat :=
  rapidhash_finish self.a self.b self.size

end Rapid

/-- The bytes of `b"hello world"`. -/
def helloWorldBytes : List Nat :=
  [104, 101, 108, 108, 111, 32, 119, 111, 114, 108, 100]

/-- Modelled from the spec (section 4.3): `evolve_seed(seed, len) = seed XOR
mix(seed XOR secret[0], secret[1]) XOR len`. Comparison definition for the
refinement claim about seed evolution. -/
def evolve_seed_spec (seed len : Nat) : Nat :=
  seed ^^^ rapid_mix (seed ^^^ RAPID_SECRET 0) (RAPID_SECRET 1) ^^^ len

/-- Modelled from the spec (section 4.9, quality RNG): word0 advances additively
by `secret[0]` mod `2^64`; word1 is XORed with `secret[1]`, word2 with the
updated word0; `mum` is applied to words 1-2, its low and high halves stored
back into words 1 and 2; the output is their XOR. Comparison definition for the
refinement claim about the quality RNG step. -/
def rapidrng_quality_spec (state : Nat × Nat × Nat) : Nat × (Nat × Nat × Nat) :=
  let word0 := (state.1 + RAPID_SECRET 0) % U64
  let word1 := state.2.1 ^^^ RAPID_SECRET 1
  let word2 := state.2.2 ^^^ word0
  let low := (rapid_mum word1 word2).1
  let high := (rapid_mum word1 word2).2
  (low ^^^ high, (word0, low, high))

/-! ## Helper lemmas -/

theorem toLeBytes_length (width i : Nat) : (toLeBytes width i).length = width := by
  induction width generalizing i with
  | zero => rfl
  | succ n ih => simp [toLeBytes, ih]

theorem fromLeBytes_nil : fromLeBytes [] = 0 := rfl

theorem fromLeBytes_cons (byte : Nat) (l : List Nat) :
    fromLeBytes (byte :: l) = byte + 256 * fromLeBytes l := rfl

theorem fromLeBytes_toLeBytes (width i : Nat) :
    fromLeBytes (toLeBytes width i) = i % 256 ^ width := by
  induction width generalizing i with
  | zero => simp [toLeBytes, fromLeBytes_nil, Nat.mod_one]
  | succ n ih =>
    rw [toLeBytes, fromLeBytes_cons, ih, pow_succ, mul_comm (256 ^ n) 256, Nat.mod_mul]

theorem read_u64_eq (slice : List Nat) (offset : Nat) (h : offset + 8 ≤ slice.length) :
    read_u64 slice offset = some (fromLeBytes ((slice.drop offset).take 8)) := by
  simp [read_u64, h]

theorem read_u32_eq (slice : List Nat) (offset : Nat) (h : offset + 4 ≤ slice.length) :
    read_u32 slice offset = some (fromLeBytes ((slice.drop offset).take 4)) := by
  simp [read_u32, h]

/-! ## Claims -/

/-- C1: for every seed `s` and byte slice `d`, constructing a streaming hasher
with `RapidHasher::new(s)`, calling `write` exactly once with the complete
slice `d` and then `finish`, yields exactly the one-shot
`rapidhash_seeded(d, s)`. -/
theorem claim_streaming_single_write_eq_oneshot (s : Nat) (d : List Nat) :
    ((RapidHasher.new s).write_const d).map RapidHasher.finish_const = rapidhash_seeded d s := by
  unfold rapidhash_seeded rapidhash_inline RapidHasher.write_const RapidHasher.new
  simp only [Nat.zero_add]
  cases hc : rapidhash_core 0 0 (rapidhash_seed s (d.length % U64)) d with
  | none => simp [hc]
  | some r => simp [hc, RapidHasher.finish_const]

/-- C2: the little-endian 16-byte encodings of the documented `u128` literals
hash (with the default seed) to the documented 64-bit constants, and
`rapidhash(b"hello world")` equals `17498481775468162579`, the same constant a
default streaming hasher produces after a single `write` of those bytes. -/
theorem claim_documented_vectors :
    rapidhash (toLeBytes 16 0) = some 8755926293314635566 ∧
    rapidhash (toLeBytes 16 1) = some 17996969877019643443 ∧
    rapidhash (toLeBytes 16 0x1000) = some 3752997491443908878 ∧
    rapidhash (toLeBytes 16 0x10000000) = some 1347028408682550078 ∧
    rapidhash (toLeBytes 16 0x1000000000000000) = some 3593052489046108800 ∧
    rapidhash (toLeBytes 16 0x1000000000000001) = some 7365235785575411947 ∧
    rapidhash (toLeBytes 16 0x100000000000000000000000) = some 5399386355486589714 ∧
    rapidhash (toLeBytes 16 0x10000000000000000000000000000000) = some 13365378750111633005 ∧
    rapidhash (toLeBytes 16 0xffffffffffffffffffffffffffffffff) = some 10466158564987642889 ∧
    rapidhash helloWorldBytes = some 17498481775468162579 ∧
    (RapidHasher.default_const.write_const helloWorldBytes).map RapidHasher.finish_const
      = some 17498481775468162579 := by
  decide

/-- C8: each `rapidrng_quality` step advances word0 by `secret[0]` mod `2^64`,
XORs word1 with `secret[1]` and word2 with the updated word0, applies `mum` to
words 1-2 (storing the low and high halves back) and returns their XOR. -/
theorem claim_rng_quality_step (state : Nat × Nat × Nat) :
    rapidrng_quality state = rapidrng_quality_spec state := rfl

/-- C9: each `rapidrng_fast` call replaces the seed with `seed + secret[0]`
mod `2^64` and returns `mix(new_seed, new_seed XOR secret[1])`; the output is a
pure function of the updated seed. -/
theorem claim_rng_fast_step :
    (∀ seed : Nat,
        rapidrng_fast seed =
          ((seed + RAPID_SECRET 0) % U64,
           rapid_mix ((seed + RAPID_SECRET 0) % U64)
             (((seed + RAPID_SECRET 0) % U64) ^^^ RAPID_SECRET 1))) ∧
    (∀ seed : Nat, (rapidrng_fast seed).2 = rapidrng_fast_out (rapidrng_fast seed).1) :=
  ⟨fun _ => rfl, fun _ => rfl⟩

/-- C4: seed evolution is exactly the spec's pure function
`evolve_seed(seed, len) = seed XOR mix(seed XOR secret[0], secret[1]) XOR len`,
and every streaming write (current and previous generation) first adds the new
chunk's length to the cumulative size and then evolves the seed with that
cumulative size, not with the chunk's own length. -/
theorem claim_seed_evolution :
    (∀ seed len : Nat, rapidhash_seed seed len = evolve_seed_spec seed len) ∧
    (∀ (h : RapidHasher) (bytes : List Nat),
        h.write_const bytes =
          (rapidhash_core h.a h.b
              (evolve_seed_spec h.seed ((h.size + bytes.length) % U64)) bytes).map
            (fun r => ⟨r.2.2, r.1, r.2.1, (h.size + bytes.length) % U64⟩)) ∧
    (∀ (h : Rapid.RapidHasher) (bytes : List Nat),
        h.write bytes =
          (Rapid.rapidhash_core h.a h.b
              (evolve_seed_spec h.seed ((h.size + bytes.length) % U64)) bytes).map
            (fun r => ⟨r.2.2, r.1, r.2.1, (h.size + bytes.length) % U64⟩)) := by
  refine ⟨fun _ _ => rfl, fun h bytes => ?_, fun h bytes => ?_⟩
  · unfold RapidHasher.write_const
    cases hc : rapidhash_core h.a h.b
        (evolve_seed_spec h.seed ((h.size + bytes.length) % U64)) bytes <;>
      simp_all [evolve_seed_spec, rapidhash_seed]
  · unfold Rapid.RapidHasher.write
    cases hc : Rapid.rapidhash_core h.a h.b
        (evolve_seed_spec h.seed ((h.size + bytes.length) % U64)) bytes <;>
      simp_all [evolve_seed_spec, rapidhash_seed]

/-- C7: writing the empty byte slice is not a no-op: it preserves the
cumulative size but evolves the seed and remixes the accumulator pair
(`a ^= secret[1]`, `b ^= seed`, then `mum`), and in particular the default
hasher's digest differs before and after an empty write. -/
theorem claim_empty_write_not_noop :
    (∀ h : RapidHasher, h.size < U64 →
        h.write_const [] =
          some ⟨rapidhash_seed h.seed h.size,
                (rapid_mum (h.a ^^^ RAPID_SECRET 1) (h.b ^^^ rapidhash_seed h.seed h.size)).1,
                (rapid_mum (h.a ^^^ RAPID_SECRET 1) (h.b ^^^ rapidhash_seed h.seed h.size)).2,
                h.size⟩) ∧
    (RapidHasher.default_const.write_const []).map RapidHasher.finish_const
      ≠ some RapidHasher.default_const.finish_const := by
  constructor
  · intro h hs
    unfold RapidHasher.write_const rapidhash_core
    simp [Nat.mod_eq_of_lt hs, rapid_tail]
  · decide

/-- Witness for C7 at the hasher state `{seed := 1, a := 2, b := 5, size := 3}`. -/
theorem claim_empty_write_not_noop_witness :
    (3 : Nat) < U64 ∧
      (RapidHasher.mk 1 2 5 3).write_const [] =
        some ⟨rapidhash_seed 1 3,
              (rapid_mum (2 ^^^ RAPID_SECRET 1) (5 ^^^ rapidhash_seed 1 3)).1,
              (rapid_mum (2 ^^^ RAPID_SECRET 1) (5 ^^^ rapidhash_seed 1 3)).2, 3⟩ :=
  ⟨by norm_num [U64], claim_empty_write_not_noop.1 ⟨1, 2, 5, 3⟩ (by norm_num [U64])⟩

/-- C10: `state()` serializes the three words little-endian into 24 bytes and
`from_seed` parses the same layout back, so they form a round trip on any
in-range generator state. -/
theorem claim_rng_state_roundtrip (r : RapidRng)
    (hseed : r.seed < U64) (ha : r.a < U64) (hb : r.b < U64) :
    RapidRng.from_seed r.state = r := by
  obtain ⟨s, a, b⟩ := r
  simp only at hseed ha hb
  have l1 : (toLeBytes 8 s).length = 8 := toLeBytes_length 8 s
  have l2 : (toLeBytes 8 a).length = 8 := toLeBytes_length 8 a
  have hU : (256 : Nat) ^ 8 = U64 := by norm_num [U64]
  have ht8 : ((toLeBytes 8 s ++ toLeBytes 8 a) ++ toLeBytes 8 b).take 8 = toLeBytes 8 s := by
    rw [List.append_assoc, List.take_left' l1]
  have hd8 : (((toLeBytes 8 s ++ toLeBytes 8 a) ++ toLeBytes 8 b).drop 8).take 8
      = toLeBytes 8 a := by
    rw [List.append_assoc, List.drop_left' l1, List.take_left' l2]
  have hd16 : ((toLeBytes 8 s ++ toLeBytes 8 a) ++ toLeBytes 8 b).drop 16 = toLeBytes 8 b :=
    List.drop_left' (by rw [List.length_append, l1, l2])
  unfold RapidRng.from_seed RapidRng.state
  rw [ht8, hd8, hd16, List.take_of_length_le (le_of_eq (toLeBytes_length 8 b)),
    fromLeBytes_toLeBytes, fromLeBytes_toLeBytes, fromLeBytes_toLeBytes, hU,
    Nat.mod_eq_of_lt hseed, Nat.mod_eq_of_lt ha, Nat.mod_eq_of_lt hb]

/-- Witness for C10 at the generator state `{seed := 1, a := 2, b := 3}`. -/
theorem claim_rng_state_roundtrip_witness :
    (1 : Nat) < U64 ∧ (2 : Nat) < U64 ∧ (3 : Nat) < U64 ∧
      RapidRng.from_seed (RapidRng.mk 1 2 3).state = RapidRng.mk 1 2 3 :=
  ⟨by norm_num [U64], by norm_num [U64], by norm_num [U64],
   claim_rng_state_roundtrip ⟨1, 2, 3⟩ (by norm_num [U64]) (by norm_num [U64])
     (by norm_num [U64])⟩

theorem fx_loop8_stop (hash : Nat) (bytes : List Nat) (h : bytes.length < 8) :
    fx_loop8 hash bytes = some (hash, bytes) := by
  rw [fx_loop8, dif_neg (by omega)]

theorem fx_loop8_step (hash : Nat) (bytes : List Nat) (h : 8 ≤ bytes.length) :
    fx_loop8 hash bytes =
      fx_loop8 (hash_word hash (fromLeBytes (bytes.take 8))) (bytes.drop 8) := by
  rw [fx_loop8, dif_pos h, read_u64_eq _ _ (by omega)]
  simp

/-- C6: every typed integer write is equivalent to `write` on the integer's
native-endian byte representation, for all unsigned and signed widths of
`RapidHasher`, and for `FxRapidHasher`'s specialized `write_u64` which bypasses
the byte-slice path and calls `hash_word` directly. -/
theorem claim_typed_write_equiv :
    (∀ (h : RapidHasher) (i : Nat), h.write_u8 i = h.write_const (toLeBytes 1 i)) ∧
    (∀ (h : RapidHasher) (i : Nat), h.write_u16 i = h.write_const (toLeBytes 2 i)) ∧
    (∀ (h : RapidHasher) (i : Nat), h.write_u32 i = h.write_const (toLeBytes 4 i)) ∧
    (∀ (h : RapidHasher) (i : Nat), h.write_u64 i = h.write_const (toLeBytes 8 i)) ∧
    (∀ (h : RapidHasher) (i : Nat), h.write_u128 i = h.write_const (toLeBytes 16 i)) ∧
    (∀ (h : RapidHasher) (i : Nat), h.write_usize i = h.write_const (toLeBytes 8 i)) ∧
    (∀ (h : RapidHasher) (i : Int), h.write_i8 i = h.write_const (toLeBytesSigned 1 i)) ∧
    (∀ (h : RapidHasher) (i : Int), h.write_i16 i = h.write_const (toLeBytesSigned 2 i)) ∧
    (∀ (h : RapidHasher) (i : Int), h.write_i32 i = h.write_const (toLeBytesSigned 4 i)) ∧
    (∀ (h : RapidHasher) (i : Int), h.write_i64 i = h.write_const (toLeBytesSigned 8 i)) ∧
    (∀ (h : RapidHasher) (i : Int), h.write_i128 i = h.write_const (toLeBytesSigned 16 i)) ∧
    (∀ (h : RapidHasher) (i : Int), h.write_isize i = h.write_const (toLeBytesSigned 8 i)) ∧
    (∀ (h : FxRapidHasher) (i : Nat), i < U64 →
        some (h.write_u64 i) = h.write (toLeBytes 8 i)) := by
  refine ⟨fun _ _ => rfl, fun _ _ => rfl, fun _ _ => rfl, fun _ _ => rfl, fun _ _ => rfl,
    fun _ _ => rfl, fun _ _ => rfl, fun _ _ => rfl, fun _ _ => rfl, fun _ _ => rfl,
    fun _ _ => rfl, fun _ _ => rfl, fun h i hi => ?_⟩
  have hlen : (toLeBytes 8 i).length = 8 := toLeBytes_length 8 i
  unfold FxRapidHasher.write fxrapidhash
  rw [if_pos (by omega), fx_loop8_step _ _ (by omega),
    List.take_of_length_le (by omega), fx_loop8_stop _ _ (by simp [hlen]),
    fromLeBytes_toLeBytes]
  have hU : (256 : Nat) ^ 8 = U64 := by norm_num [U64]
  rw [hU, Nat.mod_eq_of_lt hi, List.drop_eq_nil_of_le (by omega)]
  simp [FxRapidHasher.write_u64]

/-- Witness for C6 at `i = 5` on the hybrid hasher with accumulator 7. -/
theorem claim_typed_write_equiv_witness :
    (5 : Nat) < U64 ∧
      some ((FxRapidHasher.mk 7).write_u64 5) = (FxRapidHasher.mk 7).write (toLeBytes 8 5) :=
  ⟨by norm_num [U64], claim_typed_write_equiv.2.2.2.2.2.2.2.2.2.2.2.2 ⟨7⟩ 5 (by norm_num [U64])⟩

theorem getElem?_eq_some_getD (l : List Nat) (i : Nat) (h : i < l.length) :
    l[i]? = some (l.getD i 0) := by
  simp [List.getD_eq_getElem?_getD, List.getElem?_eq_getElem h]

/-- C5: for slices of length 1 through 16 the compression core's band step is:
for length 1-3, `a` is XORed with
`(data[0] << 56) | (data[len >> 1] << 32) | data[len-1]` and `b` is unchanged;
for length 4-16, `a ^= combine32(read_u32(0), read_u32(len-4))` and
`b ^= combine32(read_u32(delta), read_u32(len-4-delta))` with `delta` exactly 4
when `len >= 8` and 0 otherwise; and the alternative implementation's bit-trick
`(len & 24) >> (len >> 3)` computes this same delta for every `len` in 4..=16. -/
theorem claim_small_length_bands :
    (∀ (a b seed : Nat) (data : List Nat), 1 ≤ data.length → data.length ≤ 3 →
        rapidhash_core a b seed data =
          some (rapid_tail
            (a ^^^ ((data.getD 0 0 <<< 56) ||| (data.getD (data.length >>> 1) 0 <<< 32) |||
                data.getD (data.length - 1) 0)) b seed)) ∧
    (∀ (a b seed : Nat) (data : List Nat), 4 ≤ data.length → data.length ≤ 16 →
        rapidhash_core a b seed data = (do
          let xa ← read_u32_combined data 0 (data.length - 4)
          let xb ← read_u32_combined data (if 8 ≤ data.length then 4 else 0)
              (data.length - 4 - (if 8 ≤ data.length then 4 else 0))
          pure (rapid_tail (a ^^^ xa) (b ^^^ xb) seed))) ∧
    (∀ len : Nat, 4 ≤ len → len ≤ 16 → Rapid.delta len = if 8 ≤ len then 4 else 0) := by
  refine ⟨fun a b seed data h1 h3 => ?_, fun a b seed data h4 h16 => ?_,
    fun len h4 h16 => ?_⟩
  · unfold rapidhash_core
    rw [if_pos (by omega), if_neg (by omega), if_neg (by omega), if_pos (by omega)]
    have mhalf : data.length >>> 1 < data.length := by
      rw [Nat.shiftRight_eq_div_pow, pow_one]
      omega
    simp (disch := omega) only [getElem?_eq_some_getD]
    simp
  · unfold rapidhash_core
    rw [if_pos (by omega)]
    by_cases h8 : 8 ≤ data.length
    · simp [h8]
    · simp [h8, show 4 ≤ data.length from h4]
  · interval_cases len <;> rfl

/-- Witness for C5: length 2 for the first band, length 9 for the second, and
the bit-trick delta at length 9. -/
theorem claim_small_length_bands_witness :
    (rapidhash_core 0 0 9 [5, 6] =
        some (rapid_tail ((0 : Nat) ^^^ ((5 <<< 56) ||| (6 <<< 32) ||| 6)) 0 9)) ∧
    (rapidhash_core 0 0 9 [1, 2, 3, 4, 5, 6, 7, 8, 9] = (do
        let xa ← read_u32_combined [1, 2, 3, 4, 5, 6, 7, 8, 9] 0 5
        let xb ← read_u32_combined [1, 2, 3, 4, 5, 6, 7, 8, 9] 4 1
        pure (rapid_tail ((0 : Nat) ^^^ xa) ((0 : Nat) ^^^ xb) 9))) ∧
    Rapid.delta 9 = 4 :=
  ⟨claim_small_length_bands.1 0 0 9 [5, 6] (by decide) (by decide),
   claim_small_length_bands.2.1 0 0 9 [1, 2, 3, 4, 5, 6, 7, 8, 9] (by decide) (by decide),
   claim_small_length_bands.2.2 9 (by decide) (by decide)⟩

theorem rapid_loop96_total (n : Nat) : ∀ slice : List Nat, slice.length ≤ n →
    ∀ seed see1 see2 : Nat, ∃ s s1 s2 rest,
      rapid_loop96 seed see1 see2 slice = some (s, s1, s2, rest) ∧ rest.length < 96 := by
  induction n with
  | zero =>
    intro slice hlen seed see1 see2
    rw [rapid_loop96, dif_neg (by omega)]
    exact ⟨seed, see1, see2, slice, rfl, by omega⟩
  | succ n ih =>
    intro slice hlen seed see1 see2
    by_cases h : 96 ≤ slice.length
    · rw [rapid_loop96, dif_pos h]
      simp (disch := omega) only [read_u64_eq, Option.bind_eq_bind, Option.some_bind]
      exact ih (slice.drop 96) (by simp [List.length_drop]; omega) _ _ _
    · rw [rapid_loop96, dif_neg h]
      exact ⟨seed, see1, see2, slice, rfl, by omega⟩

theorem rapid_round48_total (seed see1 see2 : Nat) (slice : List Nat) :
    ∃ s s1 s2 rest, rapid_round48 seed see1 see2 slice = some (s, s1, s2, rest) := by
  unfold rapid_round48
  by_cases h48 : 48 ≤ slice.length
  · rw [if_pos h48]
    simp (disch := omega) only [read_u64_eq, Option.bind_eq_bind, Option.some_bind]
    exact ⟨_, _, _, _, rfl⟩
  · rw [if_neg h48]
    exact ⟨seed, see1, see2, slice, rfl⟩

theorem rapid_tail16_total (seed : Nat) (slice : List Nat) :
    ∃ v, rapid_tail16 seed slice = some v := by
  unfold rapid_tail16
  by_cases h16 : 16 < slice.length
  · rw [if_pos h16]
    simp (disch := omega) only [read_u64_eq, Option.bind_eq_bind, Option.some_bind]
    by_cases h32 : 32 < slice.length
    · rw [if_pos h32]
      exact ⟨_, rfl⟩
    · rw [if_neg h32]
      exact ⟨_, rfl⟩
  · rw [if_neg h16]
    exact ⟨seed, rfl⟩

theorem rapid_large_seed_total (seed : Nat) (data : List Nat) :
    ∃ v, rapid_large_seed seed data = some v := by
  unfold rapid_large_seed
  obtain ⟨s, s1, s2, rest, heq, hlt⟩ := rapid_loop96_total data.length data le_rfl seed seed seed
  rw [heq]
  simp only [Option.bind_eq_bind, Option.some_bind]
  obtain ⟨t, t1, t2, rest2, heq2⟩ := rapid_round48_total s s1 s2 rest
  rw [heq2]
  simp only [Option.bind_eq_bind, Option.some_bind]
  exact rapid_tail16_total (t ^^^ t1 ^^^ t2) rest2

theorem rapidhash_core_total (a b seed : Nat) (data : List Nat) :
    ∃ r, rapidhash_core a b seed data = some r := by
  unfold rapidhash_core
  by_cases h16 : data.length ≤ 16
  · rw [if_pos h16]
    by_cases h8 : 8 ≤ data.length
    · rw [if_pos h8]
      simp (disch := omega) only [read_u32_combined, read_u32_eq, Option.bind_eq_bind,
        Option.some_bind]
      exact ⟨_, rfl⟩
    · rw [if_neg h8]
      by_cases h4 : 4 ≤ data.length
      · rw [if_pos h4]
        simp (disch := omega) only [read_u32_combined, read_u32_eq, Option.bind_eq_bind,
          Option.some_bind]
        exact ⟨_, rfl⟩
      · rw [if_neg h4]
        by_cases h0 : 0 < data.length
        · rw [if_pos h0]
          have mhalf : data.length >>> 1 < data.length := by
            rw [Nat.shiftRight_eq_div_pow, pow_one]
            omega
          simp (disch := omega) only [getElem?_eq_some_getD, Option.bind_eq_bind,
            Option.some_bind]
          exact ⟨_, rfl⟩
        · rw [if_neg h0]
          exact ⟨_, rfl⟩
  · rw [if_neg h16]
    obtain ⟨v, hv⟩ := rapid_large_seed_total seed data
    rw [hv]
    simp (disch := omega) only [read_u64_eq, Option.bind_eq_bind, Option.some_bind]
    exact ⟨_, rfl⟩

/-- C3: for every byte slice and seed, the one-shot hash and `rapidhash_core`
with the bounds-checked readers never reach the panic branch of `read_u32` or
`read_u64`: every read issued by the length-banding logic is in bounds, so the
embedded functions are total (always `some`). -/
theorem claim_reads_never_panic :
    (∀ (data : List Nat) (seed : Nat), (rapidhash_inline data seed).isSome) ∧
    (∀ (a b seed : Nat) (data : List Nat), (rapidhash_core a b seed data).isSome) := by
  have hcore : ∀ (a b seed : Nat) (data : List Nat), (rapidhash_core a b seed data).isSome := by
    intro a b seed data
    obtain ⟨r, hr⟩ := rapidhash_core_total a b seed data
    simp [hr]
  refine ⟨fun data seed => ?_, hcore⟩
  unfold rapidhash_inline
  obtain ⟨r, hr⟩ := rapidhash_core_total 0 0 (rapidhash_seed seed (data.length % U64)) data
  simp [hr]

end Rapidhash
